import Mathlib

/-!
Verification of `photosort.py` (an interactive photo-triage tool) against its
natural-language specification.

The development shallowly embeds the program's core: the `Sorter` class state
(file list, destination list, tag map, cursor, display modes), the tag mutator
`switchdest`, the commit path `done`, the list-only exit `exitlist`, the text
overlays of `display`, the `destcolors` palette, the event loop `go`, and the
`__main__` argument handling.

Modelling conventions:
 - Python non-negative machine-free ints become `Nat`; `%` on non-negative
   operands agrees between Python and `Nat`.
 - The Python dict `self.destmap` becomes a total function `String → Nat`
   updated pointwise (every file list entry has exactly one binding).
 - `self.destinations = [None] + destinations` becomes
   `none :: destinations.map some : List (Option String)`.
 - The filesystem visible to `done` is a record of source-directory entries,
   existing destination directories, and existing destination file paths.
   `os.path.join` on the slash-free arguments used here is string append with
   a slash separator.
 - Fallible code (an uncaught `OSError`/`IndexError` in Python) is an
   `Except`/`Option` error value.
 - Pygame rendering (image blit, crosshair pixels, `display.flip`) and the
   image/metadata caches are display-service effects with no influence on the
   sorter state; only the text draw calls of `display` are embedded, as a list
   of draw records.
-/

/-- RGB color triple as used by the palette and the text draw calls. -/
abbrev RGB : Type := Nat × Nat × Nat

/-- os.path.join for one directory and one slash-free base filename. -/
def pathJoin (dir fname : String) : String := dir ++ "/" ++ fname

/-- the module-level palette `destcolors`: a 19-entry base list which the
source then doubles with `destcolors += destcolors`. -/
def destcolors : List RGB :=
  let base : List RGB :=
    [(0, 0, 0),
     (255, 0, 0), (0, 255, 0), (0, 0, 255),
     (255, 255, 0), (255, 0, 255), (0, 255, 255),
     (255, 128, 0), (128, 96, 0),
     (0, 255, 128), (0, 128, 255),
     (128, 0, 255), (192, 0, 128),
     (128, 255, 0),
     (192, 192, 192), (128, 128, 128), (64, 64, 64),
     (0, 0, 0), (255, 255, 255)]
  base ++ base

/-- the state of the `Sorter` class: source directory name, the sorted file
list, the tag map (`destmap`), the destination list with the `None` sentinel
at index 0, the two display modes, and the cursor (`current`).  The
`photos`/`metadata` caches are omitted: they memoize the external image and
metadata services and never influence the tagging state. -/
structure Sorter where
  directory : String
  filelist : List String
  destmap : String → Nat
  destinations : List (Option String)
  verbose : Nat
  crosshair : Nat
  current : Nat

/-- `Sorter.__init__`: the file list is the sorted directory listing, every
file starts untagged (0), destinations get the `None` sentinel prepended,
both display modes are off and the cursor is at 0. -/
def Sorter.init (directory : String) (listing : List String)
    (destinations : List String) : Sorter :=
  { directory := directory
    filelist := listing.mergeSort (fun a b => a ≤ b)
    destmap := fun _ => 0
    destinations := none :: destinations.map some
    verbose := 0
    crosshair := 0
    current := 0 }

/-- `Sorter.switchdest`: set the file's tag to
`(destmap[fname] + 1) % len(destinations)`. -/
def Sorter.switchdest (s : Sorter) (fname : String) : Sorter :=
  { s with destmap := fun g =>
      if g = fname then (s.destmap fname + 1) % s.destinations.length
      else s.destmap g }

/-- a concrete session state used to instantiate theorems with hypotheses:
three files, destinations Keep and Trash, a.jpg tagged 1 and c.jpg tagged 2. -/
def sampleSorter : Sorter :=
  { directory := "myphotos"
    filelist := ["a.jpg", "b.jpg", "c.jpg"]
    destmap := fun g => if g = "a.jpg" then 1 else if g = "c.jpg" then 2 else 0
    destinations := [none, some "Keep", some "Trash"]
    verbose := 0
    crosshair := 0
    current := 0 }

/-- the filesystem state visible to `Sorter.done` and `Sorter.exitlist`:
the entries of the source directory, the set of existing destination
directories, and the full paths of files already existing at destinations. -/
structure FS where
  src : List String
  dirs : List String
  files : List String

/-- an uncaught exception escaping `Sorter.done`: either the deliberate
`OSError("Avoided trashing file " + newname)` on a destination collision, or
a Python `IndexError`/`TypeError` from `self.destinations[...]` when a tag is
outside the destination list (impossible in states the program reaches).  The
error carries the filesystem state at the moment the exception is raised. -/
inductive CommitErr where
  | collision (path : String) (fs : FS)
  | badIndex (fs : FS)

/-- the filesystem state carried by an uncaught commit exception. -/
def CommitErr.state : CommitErr → FS
  | .collision _ fs => fs
  | .badIndex fs => fs

/-- the `if not os.path.exists(newdir): os.mkdir(newdir)` step of
`Sorter.done`: ensure the destination directory exists.  It changes only the
directory set, never the source listing or the destination files. -/
def mkdirFS (newdir : String) (fs : FS) : FS :=
  { fs with dirs := if newdir ∈ fs.dirs then fs.dirs else newdir :: fs.dirs }

/-- the loop body of `Sorter.done`, over the remaining file list: for each
tagged file, `mkdir` the destination directory when missing, raise when the
destination path already exists (mkdir leaves `files` unchanged, so the
existence test reads `fs.files`), otherwise `os.rename` the file (remove it
from the source listing, add the new path).  The program's session invariant
keeps every tag inside the destination list and every file list entry present
in the source directory, so the `badIndex` arm and a failing rename are
unreachable in states the program itself produces. -/
def commitFiles (dm : String → Nat) (ds : List (Option String)) :
    List String → FS → Except CommitErr FS
  | [], fs => .ok fs
  | fname :: rest, fs =>
    if dm fname ≠ 0 then
      match ds.get? (dm fname) with
      | some (some newdir) =>
        if pathJoin newdir fname ∈ fs.files then
          .error (.collision (pathJoin newdir fname) (mkdirFS newdir fs))
        else
          commitFiles dm ds rest
            { src := fs.src.erase fname
              dirs := (mkdirFS newdir fs).dirs
              files := pathJoin newdir fname :: fs.files }
      | _ => .error (.badIndex fs)
    else
      commitFiles dm ds rest fs

/-- `Sorter.done` (minus the screen notice and the final `sys.exit(0)`,
which the event loop embedding accounts for): commit every tagged file in
file-list order. -/
def Sorter.done (s : Sorter) (fs : FS) : Except CommitErr FS :=
  commitFiles s.destmap s.destinations s.filelist fs

/-- the filesystem state a commit run ends in, successful or not. -/
def resFS : Except CommitErr FS → FS
  | .ok fs => fs
  | .error e => e.state

/-- a session state and filesystem where the only file is tagged to Keep and
`Keep/a.jpg` already exists: the collision scenario of the spec's test 9. -/
def collideSorter : Sorter :=
  { directory := "myphotos"
    filelist := ["a.jpg"]
    destmap := fun g => if g = "a.jpg" then 1 else 0
    destinations := [none, some "Keep"]
    verbose := 0
    crosshair := 0
    current := 0 }

def collideFS : FS :=
  { src := ["a.jpg"], dirs := ["Keep"], files := ["Keep/a.jpg"] }

/-- a filesystem for the abort scenario: three files in the source directory,
`Trash/c.jpg` already exists; `sampleSorter` tags a.jpg to Keep and c.jpg to
Trash, so commit moves a.jpg and then aborts on c.jpg. -/
def abortFS : FS :=
  { src := ["a.jpg", "b.jpg", "c.jpg"], dirs := [], files := ["Trash/c.jpg"] }

def abortMidFS : FS :=
  { src := ["b.jpg", "c.jpg"], dirs := ["Keep"]
    files := ["Keep/a.jpg", "Trash/c.jpg"] }

/-- the print loop of `Sorter.exitlist`: for each tagged file in file-list
order, print `os.path.join(destinations[tag], fname)`.  Returns the lines in
print order together with a flag recording whether an uncaught
`IndexError`/`TypeError` from `self.destinations[...]` cut the loop short
(unreachable in states the program itself produces). -/
def exitlistLoop (dm : String → Nat) (ds : List (Option String)) :
    List String → List String × Bool
  | [] => ([], false)
  | fname :: rest =>
    if dm fname ≠ 0 then
      match ds.get? (dm fname) with
      | some (some newdir) =>
        (pathJoin newdir fname :: (exitlistLoop dm ds rest).1,
         (exitlistLoop dm ds rest).2)
      | _ => ([], true)
    else exitlistLoop dm ds rest

/-- `Sorter.exitlist` (minus the screen notice and the final `sys.exit(0)`,
which the event loop embedding accounts for): print the would-be destination
path of every tagged file.  It performs no filesystem operation — the source
contains only `print` calls. -/
def Sorter.exitlist (s : Sorter) : List String × Bool :=
  exitlistLoop s.destmap s.destinations s.filelist

/-- the destination directory name a file's tag points at (empty when the
tag points outside the destination list or at the sentinel `None`). -/
def destDirFor (dm : String → Nat) (ds : List (Option String))
    (g : String) : String :=
  match ds.get? (dm g) with
  | some (some d) => d
  | _ => ""

/-- the metadata record returned by `kaa.metadata.parse`.  Kaa `Media`
objects define their core attributes (among them `timestamp`) at
construction, set to `None` when the file lacks the field, and `Media.get`
is `getattr(self, attr, default)`; `description` is `none` here when the
attribute is absent or `None` (both spellings reach the same fallback in
`display`). -/
structure Media where
  description : Option String
  timestamp : Option Int

/-- `self.metadata[fname].get("timestamp", 0)`: because `timestamp` is an
always-defined kaa core attribute, `getattr` returns its value (`None` when
the file has no capture time) and the default `0` is never used. -/
def Media.getTimestamp (m : Media) (_dflt : Int) : Option Int :=
  m.timestamp

/-- the timestamp line of verbose display:
`time.ctime(date) if date != None else "No timestamp"`, with `time.ctime`
kept abstract as a formatting function. -/
def timestampText (ctime : Int → String) (m : Media) : String :=
  match Media.getTimestamp m 0 with
  | some t => ctime t
  | none => "No timestamp"

/-- the description line of verbose display:
`metadata.get("description", "No description")` followed by
`if not desc: desc = "No description"` — missing attribute, `None` and the
empty string all collapse to the fallback. -/
def descriptionText (m : Media) : String :=
  match m.description with
  | some s => if s = "" then "No description" else s
  | none => "No description"

/-- one `writetext` call of `Sorter.display`: the rendered string, its
screen position and its color. -/
structure TextDraw where
  text : String
  x : Int
  y : Int
  color : RGB
deriving DecidableEq

/-- the text color verbose mode uses: white for mode 1, black for mode 2. -/
def verboseColor (s : Sorter) : RGB :=
  if s.verbose = 1 then (255, 255, 255) else (0, 0, 0)

/-- the metadata block of `Sorter.display` (the `if self.verbose:` suite):
three `writetext` calls — description, timestamp, raw filename — offset from
the image's top-left `offset_x`, or nothing when verbose mode is off. -/
def Sorter.displayVerbose (ctime : Int → String) (s : Sorter) (fname : String)
    (m : Media) (offset_x : Int) : List TextDraw :=
  if s.verbose ≠ 0 then
    [⟨descriptionText m, offset_x + 20, 60, verboseColor s⟩,
     ⟨timestampText ctime m, offset_x + 20, 100, verboseColor s⟩,
     ⟨fname, offset_x + 20, 140, verboseColor s⟩]
  else []

/-- the destination-tag block of `Sorter.display`
(`if self.destmap[fname] != 0:` … `self.writetext(dest, …, color)`): `none`
models the uncaught `IndexError` when `destcolors[tag]` or
`destinations[tag]` is out of range (or the drawn value is the sentinel),
`some []` the untagged case, `some [draw]` the drawn label. -/
def Sorter.displayTag (s : Sorter) (fname : String) (offset_x : Int) :
    Option (List TextDraw) :=
  if s.destmap fname ≠ 0 then
    match s.destinations.get? (s.destmap fname),
        destcolors.get? (s.destmap fname) with
    | some (some dest), some color => some [⟨dest, offset_x + 20, 20, color⟩]
    | _, _ => none
  else some []

/-- the keys `Sorter.go` distinguishes. -/
inductive Key where
  | k_q | k_escape | k_s | k_l | k_space | k_right | k_left | k_c | k_v
  | k_other
deriving DecidableEq

/-- a pygame event as `Sorter.go` sees it: window close (`pygame.QUIT`), a
key press with its shift-modifier state, or anything else (ignored). -/
inductive PEvent where
  | quit
  | keydown (key : Key) (shift : Bool)
  | other

/-- the outcome of handling one event: continue the loop with new state,
terminate the process (`sys.exit`) with an exit code — carrying the
filesystem state and any stdout lines produced — or die on an uncaught
exception. -/
inductive StepOut where
  | cont (s : Sorter) (fs : FS)
  | exited (code : Nat) (fs : FS) (output : List String)
  | crashed (fs : FS)

/-- one iteration of the event loop body of `Sorter.go`, following the
source's `if`/`elif` chain exactly.  `pygame.QUIT` runs bare `sys.exit()`
(status 0); `bailout` runs `sys.exit(1)`; `done`/`exitlist` run
`sys.exit(0)` after their filesystem/stdout effect.  The post-event
`self.display(...)` call only renders and is not part of the state
transition. -/
def Sorter.handleEvent (s : Sorter) (fs : FS) (e : PEvent) : StepOut :=
  match e with
  | .quit => .exited 0 fs []
  | .keydown key shift =>
    if key = Key.k_q ∧ shift = true then .exited 1 fs []
    else if key = Key.k_escape then .exited 1 fs []
    else if key = Key.k_s ∧ shift = true then
      match Sorter.done s fs with
      | .ok fs' => .exited 0 fs' []
      | .error err => .crashed err.state
    else if key = Key.k_l ∧ shift = true then
      if (Sorter.exitlist s).2 then .crashed fs
      else .exited 0 fs (Sorter.exitlist s).1
    else if key = Key.k_space then
      match s.filelist.get? s.current with
      | some fname => .cont (Sorter.switchdest s fname) fs
      | none => .crashed fs
    else if key = Key.k_right then
      .cont (if s.current < s.filelist.length - 1
             then { s with current := s.current + 1 } else s) fs
    else if key = Key.k_left then
      .cont (if s.current > 0
             then { s with current := s.current - 1 } else s) fs
    else if key = Key.k_c then
      .cont { s with crosshair := (s.crosshair + 1) % 3 } fs
    else if key = Key.k_v then
      .cont { s with verbose := (s.verbose + 1) % 3 } fs
    else .cont s fs
  | .other => .cont s fs

/-- `Sorter.go` over a finite event sequence: handle events until one of
them terminates the process (or the sequence is exhausted with the loop
still waiting). -/
def Sorter.go (s : Sorter) (fs : FS) : List PEvent → StepOut
  | [] => .cont s fs
  | e :: rest =>
    match Sorter.handleEvent s fs e with
    | .cont s1 fs1 => Sorter.go s1 fs1 rest
    | .exited code fs1 out => .exited code fs1 out
    | .crashed fs1 => .crashed fs1

/-- the `__main__` argument handling: `sys.argv[1]` raises `IndexError` when
absent (usage message, `sys.exit(1)`), while `sys.argv[2:]` is a slice and
never raises — an empty destination list is passed on. -/
inductive ArgParse where
  | usageExit
  | proceed (srcdir : String) (destdirs : List String)
deriving DecidableEq

def parseArgs (argv : List String) : ArgParse :=
  match argv.get? 1 with
  | none => .usageExit
  | some srcdir => .proceed srcdir (argv.drop 2)

/-- the verbose-mode state and the abstract `time.ctime` used to instantiate
the display theorems. -/
def verboseSorter : Sorter :=
  { sampleSorter with verbose := 1 }

def exampleCtime : Int → String := fun t => toString t

/-- a session with 38 user-supplied destinations (destination list length 39
with the sentinel) whose single file is tagged with the valid destination
index 38. -/
def manyDestSorter : Sorter :=
  { directory := "myphotos"
    filelist := ["x.jpg"]
    destmap := fun _ => 38
    destinations := none :: List.replicate 38 (some "d")
    verbose := 0
    crosshair := 0
    current := 0 }

/-- the state the sample session reaches after one "next" keypress. -/
def steppedSorter : Sorter :=
  { sampleSorter with current := 1 }

theorem Sorter.switchdest_destinations (s : Sorter) (f : String) :
    (s.switchdest f).destinations = s.destinations := rfl

theorem Sorter.switchdest_destmap_self (s : Sorter) (f : String) :
    (s.switchdest f).destmap f = (s.destmap f + 1) % s.destinations.length := by
  simp [Sorter.switchdest]

theorem Sorter.switchdest_iterate (s : Sorter) (f : String)
    (h : s.destmap f < s.destinations.length) : ∀ k : Nat,
    ((fun t => Sorter.switchdest t f)^[k] s).destinations = s.destinations ∧
    ((fun t => Sorter.switchdest t f)^[k] s).destmap f
      = (s.destmap f + k) % s.destinations.length := by
  intro k
  induction k with
  | zero =>
    exact ⟨rfl, by simp [Nat.mod_eq_of_lt h]⟩
  | succ k ih =>
    rw [Function.iterate_succ_apply']
    obtain ⟨ihdest, ihmap⟩ := ih
    constructor
    · rw [Sorter.switchdest_destinations, ihdest]
    · rw [Sorter.switchdest_destmap_self, ihdest, ihmap, Nat.mod_add_mod,
        Nat.add_assoc]

/-- Claim C2: `advance` (the source's `switchdest`) sets the tag of a file to
`(i + 1) mod len(Destination List)`; applying it `len(Destination List)` times
returns the tag to its starting value, and a tag at the last destination index
wraps back to the sentinel 0. -/
theorem Sorter.switchdest_cyclic (s : Sorter) (f : String)
    (h : s.destmap f < s.destinations.length) :
    (Sorter.switchdest s f).destmap f
      = (s.destmap f + 1) % s.destinations.length ∧
    ((fun t => Sorter.switchdest t f)^[s.destinations.length] s).destmap f
      = s.destmap f ∧
    (s.destmap f = s.destinations.length - 1 →
      (Sorter.switchdest s f).destmap f = 0) := by
  have hpos : 0 < s.destinations.length :=
    Nat.lt_of_le_of_lt (Nat.zero_le _) h
  refine ⟨Sorter.switchdest_destmap_self s f, ?_, ?_⟩
  · rw [(Sorter.switchdest_iterate s f h s.destinations.length).2,
      Nat.add_mod_right, Nat.mod_eq_of_lt h]
  · intro hlast
    rw [Sorter.switchdest_destmap_self, hlast, Nat.sub_add_cancel hpos,
      Nat.mod_self]

theorem Sorter.switchdest_cyclic_witness :
    sampleSorter.destmap "a.jpg" < sampleSorter.destinations.length ∧
    ((fun t => Sorter.switchdest t "a.jpg")^[sampleSorter.destinations.length]
      sampleSorter).destmap "a.jpg" = sampleSorter.destmap "a.jpg" :=
  ⟨by decide, (Sorter.switchdest_cyclic sampleSorter "a.jpg" (by decide)).2.1⟩

/-- Claim C10: `advance` on a file f changes only f's entry in the tag map:
any other file's tag and the file list, destination list, cursor and both
display modes are unchanged. -/
theorem Sorter.switchdest_frame (s : Sorter) (f g : String) (hg : g ≠ f) :
    (Sorter.switchdest s f).destmap g = s.destmap g ∧
    (Sorter.switchdest s f).filelist = s.filelist ∧
    (Sorter.switchdest s f).destinations = s.destinations ∧
    (Sorter.switchdest s f).current = s.current ∧
    (Sorter.switchdest s f).verbose = s.verbose ∧
    (Sorter.switchdest s f).crosshair = s.crosshair ∧
    (Sorter.switchdest s f).directory = s.directory ∧
    (Sorter.switchdest s f).destmap f
      = (s.destmap f + 1) % s.destinations.length := by
  refine ⟨?_, rfl, rfl, rfl, rfl, rfl, rfl, Sorter.switchdest_destmap_self s f⟩
  simp [Sorter.switchdest, hg]

theorem Sorter.switchdest_frame_witness :
    (Sorter.switchdest sampleSorter "a.jpg").destmap "b.jpg"
      = sampleSorter.destmap "b.jpg" ∧
    (Sorter.switchdest sampleSorter "a.jpg").filelist = sampleSorter.filelist :=
  ⟨(Sorter.switchdest_frame sampleSorter "a.jpg" "b.jpg" (by decide)).1,
   (Sorter.switchdest_frame sampleSorter "a.jpg" "b.jpg" (by decide)).2.1⟩

theorem commitFiles_files_mono (dm : String → Nat) (ds : List (Option String)) :
    ∀ (fl : List String) (fs : FS) (p : String), p ∈ fs.files →
      p ∈ (resFS (commitFiles dm ds fl fs)).files := by
  intro fl
  induction fl with
  | nil => intro fs p hp; exact hp
  | cons fname rest ih =>
    intro fs p hp
    unfold commitFiles
    split
    · split
      · split
        · exact hp
        · exact ih _ p (List.mem_cons_of_mem _ hp)
      all_goals exact hp
    · exact ih fs p hp

theorem commitFiles_src_subset (dm : String → Nat) (ds : List (Option String)) :
    ∀ (fl : List String) (fs : FS),
      (resFS (commitFiles dm ds fl fs)).src ⊆ fs.src := by
  intro fl
  induction fl with
  | nil => intro fs x h; exact h
  | cons fname rest ih =>
    intro fs
    unfold commitFiles
    split
    · split
      · split
        · exact fun x h => h
        · exact fun x hx => List.erase_subset _ _ (ih _ hx)
      all_goals exact fun x h => h
    · exact ih fs

theorem commitFiles_kept (dm : String → Nat) (ds : List (Option String)) :
    ∀ (fl : List String) (fs : FS) (x : String), x ∈ fs.src →
      (∀ g ∈ fl, dm g ≠ 0 → g ≠ x) →
      x ∈ (resFS (commitFiles dm ds fl fs)).src := by
  intro fl
  induction fl with
  | nil => intro fs x hx _; exact hx
  | cons fname rest ih =>
    intro fs x hx hkeep
    unfold commitFiles
    split
    · rename_i htag
      split
      · split
        · exact hx
        · refine ih _ x ?_ (fun g hg => hkeep g (List.mem_cons_of_mem _ hg))
          have hne : fname ≠ x := hkeep fname (List.mem_cons_self _ _) htag
          exact (List.mem_erase_of_ne (Ne.symm hne)).mpr hx
      all_goals exact hx
    · exact ih fs x hx (fun g hg => hkeep g (List.mem_cons_of_mem _ hg))

theorem commitFiles_src_nodup (dm : String → Nat) (ds : List (Option String)) :
    ∀ (fl : List String) (fs : FS), fs.src.Nodup →
      (resFS (commitFiles dm ds fl fs)).src.Nodup := by
  intro fl
  induction fl with
  | nil => intro fs h; exact h
  | cons fname rest ih =>
    intro fs h
    unfold commitFiles
    split
    · split
      · split
        · exact h
        · exact ih _ (h.erase fname)
      all_goals exact h
    · exact ih fs h

theorem commitFiles_append (dm : String → Nat) (ds : List (Option String)) :
    ∀ (l₁ l₂ : List String) (fs : FS),
      commitFiles dm ds (l₁ ++ l₂) fs =
        match commitFiles dm ds l₁ fs with
        | .ok fs' => commitFiles dm ds l₂ fs'
        | .error e => .error e := by
  intro l₁
  induction l₁ with
  | nil => intro l₂ fs; rfl
  | cons fname rest ih =>
    intro l₂ fs
    rw [List.cons_append, commitFiles, commitFiles]
    by_cases htag : dm fname ≠ 0
    · rw [if_pos htag, if_pos htag]
      cases hds : ds.get? (dm fname) with
      | none => rfl
      | some od =>
        cases od with
        | none => rfl
        | some newdir =>
          dsimp only
          by_cases hex : pathJoin newdir fname ∈ fs.files
          · rw [if_pos hex, if_pos hex]
          · rw [if_neg hex, if_neg hex]
            exact ih l₂ _
    · rw [if_neg htag, if_neg htag]
      exact ih l₂ fs

theorem commitFiles_ok_moves (dm : String → Nat) (ds : List (Option String)) :
    ∀ (fl : List String) (fs : FS) (fs' : FS),
      commitFiles dm ds fl fs = .ok fs' → fs.src.Nodup →
      ∀ g ∈ fl, dm g ≠ 0 →
        ∃ d2, ds.get? (dm g) = some (some d2) ∧
          pathJoin d2 g ∈ fs'.files ∧ g ∉ fs'.src := by
  intro fl
  induction fl with
  | nil => intro fs fs' _ _ g hg; exact absurd hg (List.not_mem_nil g)
  | cons fname rest ih =>
    intro fs fs' hok hnd g hg htagg
    rw [commitFiles] at hok
    rcases List.mem_cons.mp hg with hgf | hgrest
    · subst hgf
      rw [if_pos htagg] at hok
      split at hok
      · rename_i newdir heq
        split at hok
        · exact absurd hok (by simp)
        · rename_i hex
          refine ⟨newdir, heq, ?_, ?_⟩
          · have hmono := commitFiles_files_mono dm ds rest
              { src := fs.src.erase g
                dirs := (mkdirFS newdir fs).dirs
                files := pathJoin newdir g :: fs.files }
              (pathJoin newdir g) (List.mem_cons_self _ _)
            rwa [hok] at hmono
          · intro habs
            have hsub := commitFiles_src_subset dm ds rest
              { src := fs.src.erase g
                dirs := (mkdirFS newdir fs).dirs
                files := pathJoin newdir g :: fs.files }
            rw [hok] at hsub
            have hmem : g ∈ fs.src.erase g := hsub habs
            exact absurd ((List.Nodup.mem_erase_iff hnd).mp hmem).1 (by simp)
      all_goals exact absurd hok (by simp)
    · by_cases htagf : dm fname ≠ 0
      · rw [if_pos htagf] at hok
        split at hok
        · split at hok
          · exact absurd hok (by simp)
          · exact ih _ fs' hok (hnd.erase fname) g hgrest htagg
        all_goals exact absurd hok (by simp)
      · rw [if_neg htagf] at hok
        exact ih fs fs' hok hnd g hgrest htagg

/-- Claim C1: `commit()` (`Sorter.done`) never replaces an existing file at a
computed destination path: when some tagged file's destination path already
exists before commit, `done` raises a reported `OSError` rather than
succeeding, and the pre-existing file is still present in the state the error
leaves behind (neither overwritten nor silently skipped). -/
theorem Sorter.done_never_overwrites (s : Sorter) (fs : FS) (f d : String)
    (hf : f ∈ s.filelist) (htag : s.destmap f ≠ 0)
    (hd : s.destinations.get? (s.destmap f) = some (some d))
    (hex : pathJoin d f ∈ fs.files) :
    (∃ e, Sorter.done s fs = .error e ∧ pathJoin d f ∈ e.state.files) ∧
    ∀ fs', Sorter.done s fs ≠ .ok fs' := by
  obtain ⟨pre, post, hsplit⟩ := List.append_of_mem hf
  have hmain : ∃ e, Sorter.done s fs = .error e ∧
      pathJoin d f ∈ e.state.files := by
    unfold Sorter.done
    rw [hsplit, commitFiles_append]
    cases hpre : commitFiles s.destmap s.destinations pre fs with
    | error e =>
      refine ⟨e, rfl, ?_⟩
      have hm := commitFiles_files_mono s.destmap s.destinations pre fs _ hex
      rwa [hpre] at hm
    | ok fsMid =>
      have hexMid : pathJoin d f ∈ fsMid.files := by
        have hm := commitFiles_files_mono s.destmap s.destinations pre fs _ hex
        rwa [hpre] at hm
      dsimp only
      rw [commitFiles, if_pos htag, hd]
      dsimp only
      rw [if_pos hexMid]
      exact ⟨_, rfl, hexMid⟩
  refine ⟨hmain, ?_⟩
  intro fs' hok
  obtain ⟨e, he, _⟩ := hmain
  rw [he] at hok
  exact absurd hok (by simp)

theorem Sorter.done_never_overwrites_witness :
    (∃ e, Sorter.done collideSorter collideFS = .error e ∧
      pathJoin "Keep" "a.jpg" ∈ e.state.files) ∧
    ∀ fs', Sorter.done collideSorter collideFS ≠ .ok fs' :=
  Sorter.done_never_overwrites collideSorter collideFS "a.jpg" "Keep"
    (by decide) (by decide) (by decide) (by decide)

/-- Claim C7: when `commit()` meets its first collision, the whole commit
aborts there: tagged files processed before the collision (in file-list
order) have been moved (their destination paths exist, they are gone from the
source directory), while the colliding file and everything after it — indeed
every source entry outside the already-processed prefix — are still in the
source directory; and a file with tag 0 is never moved. -/
theorem Sorter.done_aborts_on_first_collision
    (s : Sorter) (fs : FS) (pre post : List String) (f d : String) (fsMid : FS)
    (hfl : s.filelist = pre ++ f :: post)
    (hsrc : fs.src.Nodup)
    (hok : commitFiles s.destmap s.destinations pre fs = .ok fsMid)
    (htag : s.destmap f ≠ 0)
    (hd : s.destinations.get? (s.destmap f) = some (some d))
    (hex : pathJoin d f ∈ fsMid.files) :
    ∃ fsE : FS,
      Sorter.done s fs = .error (.collision (pathJoin d f) fsE) ∧
      fsE.src = fsMid.src ∧ fsE.files = fsMid.files ∧
      (∀ g ∈ pre, s.destmap g ≠ 0 →
        ∃ d2, s.destinations.get? (s.destmap g) = some (some d2) ∧
          pathJoin d2 g ∈ fsE.files ∧ g ∉ fsE.src) ∧
      (∀ x ∈ fs.src, x ∉ pre → x ∈ fsE.src) ∧
      (∀ x ∈ fs.src, s.destmap x = 0 → x ∈ fsE.src) := by
  refine ⟨mkdirFS d fsMid, ?_, rfl, rfl, ?_, ?_, ?_⟩
  · unfold Sorter.done
    rw [hfl, commitFiles_append, hok]
    dsimp only
    rw [commitFiles, if_pos htag, hd]
    dsimp only
    rw [if_pos hex]
  · intro g hg htagg
    obtain ⟨d2, hd2, hfile, hout⟩ := commitFiles_ok_moves s.destmap
      s.destinations pre fs fsMid hok hsrc g hg htagg
    exact ⟨d2, hd2, hfile, hout⟩
  · intro x hx hnpre
    have hk := commitFiles_kept s.destmap s.destinations pre fs x hx
      (fun g hg _ hgx => hnpre (hgx ▸ hg))
    rw [hok] at hk
    exact hk
  · intro x hx h0
    have hk := commitFiles_kept s.destmap s.destinations pre fs x hx
      (fun g hg hgtag hgx => hgtag (by rw [hgx]; exact h0))
    rw [hok] at hk
    exact hk

theorem Sorter.done_aborts_on_first_collision_witness :
    ∃ fsE : FS,
      Sorter.done sampleSorter abortFS
        = .error (.collision (pathJoin "Trash" "c.jpg") fsE) ∧
      "b.jpg" ∈ fsE.src ∧ "c.jpg" ∈ fsE.src ∧ "a.jpg" ∉ fsE.src := by
  obtain ⟨fsE, herr, _, _, hmoved, huntouched, huntagged⟩ :=
    Sorter.done_aborts_on_first_collision sampleSorter abortFS
      ["a.jpg", "b.jpg"] [] "c.jpg" "Trash" abortMidFS
      (by decide) (by decide) rfl (by decide) (by decide) (by decide)
  obtain ⟨d2, _, _, haout⟩ := hmoved "a.jpg" (by decide) (by decide)
  exact ⟨fsE, herr, huntagged "b.jpg" (by decide) (by decide),
    huntouched "c.jpg" (by decide) (by decide), haout⟩

theorem exitlistLoop_eq (dm : String → Nat) (ds : List (Option String)) :
    ∀ fl : List String,
      (∀ g ∈ fl, dm g ≠ 0 → ∃ dg, ds.get? (dm g) = some (some dg)) →
      exitlistLoop dm ds fl
        = ((fl.filter (fun g => dm g != 0)).map
            (fun g => pathJoin (destDirFor dm ds g) g), false) := by
  intro fl
  induction fl with
  | nil => intro _; rfl
  | cons fname rest ih =>
    intro h
    have hrest := fun g hg => h g (List.mem_cons_of_mem _ hg)
    by_cases htag : dm fname ≠ 0
    · obtain ⟨dg, hdg⟩ := h fname (List.mem_cons_self _ _) htag
      rw [exitlistLoop, if_pos htag, hdg]
      dsimp only
      rw [ih hrest]
      have hfilter : (fname :: rest).filter (fun g => dm g != 0)
          = fname :: rest.filter (fun g => dm g != 0) := by
        simp [List.filter_cons, htag]
      rw [hfilter]
      simp only [List.map_cons, destDirFor, hdg]
    · have h0 : dm fname = 0 := not_not.mp htag
      rw [exitlistLoop, if_neg htag, ih hrest]
      have hfilter : (fname :: rest).filter (fun g => dm g != 0)
          = rest.filter (fun g => dm g != 0) := by
        simp [List.filter_cons, h0]
      rw [hfilter]

/-- Claim C8: `list()` (the source's `exitlist`) produces exactly one output
line per tagged file — the would-be destination path `join(destdir, fname)` —
in file-list order, and mutates no filesystem state: the list-exit event
leaves the filesystem untouched and terminates with status 0 and exactly
those lines on stdout. -/
theorem Sorter.exitlist_lines (s : Sorter)
    (h : ∀ g ∈ s.filelist, s.destmap g ≠ 0 →
      ∃ dg, s.destinations.get? (s.destmap g) = some (some dg)) :
    Sorter.exitlist s
      = ((s.filelist.filter (fun g => s.destmap g != 0)).map
          (fun g => pathJoin (destDirFor s.destmap s.destinations g) g),
         false) ∧
    ∀ fs : FS, Sorter.handleEvent s fs (.keydown .k_l true)
      = .exited 0 fs ((s.filelist.filter (fun g => s.destmap g != 0)).map
          (fun g => pathJoin (destDirFor s.destmap s.destinations g) g)) := by
  have hlines : Sorter.exitlist s
      = ((s.filelist.filter (fun g => s.destmap g != 0)).map
          (fun g => pathJoin (destDirFor s.destmap s.destinations g) g),
         false) :=
    exitlistLoop_eq s.destmap s.destinations s.filelist h
  refine ⟨hlines, ?_⟩
  intro fs
  show (if (Sorter.exitlist s).2 then StepOut.crashed fs
        else StepOut.exited 0 fs (Sorter.exitlist s).1)
      = StepOut.exited 0 fs
          ((s.filelist.filter (fun g => s.destmap g != 0)).map
            (fun g => pathJoin (destDirFor s.destmap s.destinations g) g))
  rw [hlines]
  rfl

theorem Sorter.exitlist_lines_witness :
    Sorter.exitlist sampleSorter
      = (["Keep/a.jpg", "Trash/c.jpg"], false) ∧
    Sorter.handleEvent sampleSorter abortFS (.keydown .k_l true)
      = .exited 0 abortFS ["Keep/a.jpg", "Trash/c.jpg"] := by
  have hh : ∀ g ∈ sampleSorter.filelist, sampleSorter.destmap g ≠ 0 →
      ∃ dg, sampleSorter.destinations.get? (sampleSorter.destmap g)
        = some (some dg) := by
    intro g hg htg
    have hg3 : g = "a.jpg" ∨ g = "b.jpg" ∨ g = "c.jpg" := by
      simpa [sampleSorter] using hg
    rcases hg3 with rfl | rfl | rfl
    · exact ⟨"Keep", by decide⟩
    · exact absurd (by decide : sampleSorter.destmap "b.jpg" = 0) htg
    · exact ⟨"Trash", by decide⟩
  have hmain := Sorter.exitlist_lines sampleSorter hh
  have hlist : (sampleSorter.filelist.filter
        (fun g => sampleSorter.destmap g != 0)).map
        (fun g => pathJoin
          (destDirFor sampleSorter.destmap sampleSorter.destinations g) g)
      = ["Keep/a.jpg", "Trash/c.jpg"] := by decide
  exact ⟨by rw [hmain.1, hlist], by rw [hmain.2 abortFS, hlist]⟩

/-- Claim C5: in verbose mode the timestamp line falls back to
"No timestamp" exactly when the metadata record carries no capture
timestamp; a formatted (`time.ctime`) timestamp is drawn only when one is
present. -/
theorem Sorter.display_timestamp_fallback (ctime : Int → String) (s : Sorter)
    (fname : String) (m : Media) (ox : Int) (hv : s.verbose ≠ 0) :
    (m.timestamp = none →
      (Sorter.displayVerbose ctime s fname m ox).get? 1
        = some ⟨"No timestamp", ox + 20, 100, verboseColor s⟩) ∧
    (∀ t : Int, m.timestamp = some t →
      (Sorter.displayVerbose ctime s fname m ox).get? 1
        = some ⟨ctime t, ox + 20, 100, verboseColor s⟩) := by
  constructor
  · intro hnone
    simp [Sorter.displayVerbose, hv, timestampText, Media.getTimestamp, hnone]
  · intro t ht
    simp [Sorter.displayVerbose, hv, timestampText, Media.getTimestamp, ht]

theorem Sorter.display_timestamp_fallback_witness :
    (Sorter.displayVerbose exampleCtime verboseSorter "a.jpg"
        ⟨none, none⟩ 0).get? 1
      = some ⟨"No timestamp", 0 + 20, 100, verboseColor verboseSorter⟩ ∧
    (Sorter.displayVerbose exampleCtime verboseSorter "a.jpg"
        ⟨none, some 5⟩ 0).get? 1
      = some ⟨exampleCtime 5, 0 + 20, 100, verboseColor verboseSorter⟩ :=
  ⟨(Sorter.display_timestamp_fallback exampleCtime verboseSorter "a.jpg"
      ⟨none, none⟩ 0 (by decide)).1 rfl,
   (Sorter.display_timestamp_fallback exampleCtime verboseSorter "a.jpg"
      ⟨none, some 5⟩ 0 (by decide)).2 5 rfl⟩

/-- Claim C6 counterexample: the palette is the 19-entry base list doubled
once, not an unboundedly cyclic assignment.  Palette entries 17 and 19 are
both black, so with 19 destinations in use the colors of indices 1..19 are
not distinct; and with 38 destinations the valid destination index 38 is out
of the palette's range (length 38), so the color lookup raises instead of
succeeding — rendering the tag label crashes. -/
theorem destcolors_claim_counterexample :
    destcolors.get? 17 = some (0, 0, 0) ∧
    destcolors.get? 19 = some (0, 0, 0) ∧
    (17 : Nat) ≠ 19 ∧
    destcolors.length = 38 ∧
    destcolors.get? 38 = none ∧
    manyDestSorter.destinations.length = 39 ∧
    manyDestSorter.destmap "x.jpg" = 38 ∧
    manyDestSorter.destinations.get? 38 = some (some "d") ∧
    Sorter.displayTag manyDestSorter "x.jpg" 0 = none := by
  refine ⟨by decide, by decide, by decide, by decide, by decide,
    by decide, by decide, by decide, ?_⟩
  rw [Sorter.displayTag, if_pos (by decide : manyDestSorter.destmap "x.jpg" ≠ 0),
    (by decide : manyDestSorter.destinations.get? (manyDestSorter.destmap "x.jpg")
      = some (some "d")),
    (by decide : destcolors.get? (manyDestSorter.destmap "x.jpg") = none)]

/-- Claim C6 amended: rendering a file with tag index ≠ 0 draws the
destination name in `destcolors[tag]`; the base palette's colors at indices
1..18 are pairwise distinct; the 19-entry base palette is laid down twice
(38 entries), so indices 19..37 reuse the colors of 0..18 and the color
lookup succeeds exactly for destination indices up to 37 — beyond 18 colors
repeat, and beyond 37 the lookup fails. -/
theorem destcolors_palette_amended :
    (∀ (s : Sorter) (fname : String) (ox : Int),
      s.destmap fname ≠ 0 → s.destmap fname ≤ 37 →
      ∀ dest, s.destinations.get? (s.destmap fname) = some (some dest) →
      ∃ c, destcolors.get? (s.destmap fname) = some c ∧
        Sorter.displayTag s fname ox = some [⟨dest, ox + 20, 20, c⟩]) ∧
    ((destcolors.take 19).drop 1).Nodup ∧
    (∀ i, i < 19 → destcolors.get? (i + 19) = destcolors.get? i) ∧
    destcolors.length = 38 := by
  refine ⟨?_, by decide, by decide, by decide⟩
  intro s fname ox htag hle dest hdest
  have hlt : s.destmap fname < destcolors.length := by
    have h38 : destcolors.length = 38 := by decide
    omega
  refine ⟨destcolors.get ⟨s.destmap fname, hlt⟩, List.get?_eq_get hlt, ?_⟩
  rw [Sorter.displayTag, if_pos htag, hdest, List.get?_eq_get hlt]

theorem destcolors_palette_amended_witness :
    (∃ c, destcolors.get? (sampleSorter.destmap "a.jpg") = some c ∧
      Sorter.displayTag sampleSorter "a.jpg" 0 = some [⟨"Keep", 0 + 20, 20, c⟩]) ∧
    destcolors.get? 22 = destcolors.get? 3 :=
  ⟨destcolors_palette_amended.1 sampleSorter "a.jpg" 0 (by decide) (by decide)
      "Keep" (by decide),
   destcolors_palette_amended.2.2.1 3 (by decide)⟩

/-- Claim C9: a window-close event (`pygame.QUIT`) terminates via bare
`sys.exit()`, i.e. with status 0, while the abandon keys — Escape and
Shift+Q — terminate via `bailout`'s `sys.exit(1)`; all three leave the
filesystem untouched and move no file. -/
theorem Sorter.quit_exit_zero_abandon_nonzero (s : Sorter) (fs : FS)
    (sh : Bool) :
    Sorter.handleEvent s fs PEvent.quit = .exited 0 fs [] ∧
    Sorter.handleEvent s fs (.keydown Key.k_escape sh) = .exited 1 fs [] ∧
    Sorter.handleEvent s fs (.keydown Key.k_q true) = .exited 1 fs [] := by
  refine ⟨rfl, ?_, rfl⟩
  cases sh <;> rfl

/-- Claim C4 (the failing boundary): with no arguments at all,
`sys.argv[1]` raises `IndexError` and the program prints the usage text and
exits with status 1; but with a source directory and no destination,
`sys.argv[2:]` is an empty slice — it never raises — so the program proceeds
into the session with an empty destination list instead of printing usage
and exiting non-zero. -/
theorem parseArgs_missing_destination :
    parseArgs ["./photosort.py"] = .usageExit ∧
    parseArgs ["./photosort.py", "myphotos"] = .proceed "myphotos" [] :=
  ⟨rfl, rfl⟩

theorem Sorter.handleEvent_cont_inv (s : Sorter) (fs : FS) (e : PEvent)
    (s' : Sorter) (fs' : FS)
    (h : Sorter.handleEvent s fs e = .cont s' fs') :
    s'.filelist = s.filelist ∧
    (s.current < s.filelist.length → s'.current < s'.filelist.length) := by
  cases e with
  | quit => exact absurd h (by simp [Sorter.handleEvent])
  | other =>
    rw [Sorter.handleEvent] at h
    injection h with h1 h2
    subst h1
    exact ⟨rfl, id⟩
  | keydown key shift =>
    rw [Sorter.handleEvent] at h
    cases key with
    | k_q =>
      cases shift
      · simp at h
        obtain ⟨rfl, rfl⟩ := h
        exact ⟨rfl, id⟩
      · simp at h
    | k_escape => cases shift <;> simp at h
    | k_s =>
      cases shift
      · simp at h
        obtain ⟨rfl, rfl⟩ := h
        exact ⟨rfl, id⟩
      · simp at h
        split at h <;> exact absurd h (by simp)
    | k_l =>
      cases shift
      · simp at h
        obtain ⟨rfl, rfl⟩ := h
        exact ⟨rfl, id⟩
      · simp at h
        split at h <;> exact absurd h (by simp)
    | k_space =>
      cases shift <;>
        (simp at h
         split at h
         · rename_i fname hget
           obtain ⟨rfl, rfl⟩ := h
           exact ⟨rfl, id⟩
         · exact absurd h (by simp))
    | k_right =>
      cases shift <;>
        (simp at h
         obtain ⟨rfl, rfl⟩ := h
         by_cases hc : s.current < s.filelist.length - 1
         · rw [if_pos hc]
           exact ⟨rfl, fun _ => by simp; omega⟩
         · rw [if_neg hc]
           exact ⟨rfl, id⟩)
    | k_left =>
      cases shift <;>
        (simp at h
         obtain ⟨rfl, rfl⟩ := h
         by_cases hc : s.current > 0
         · rw [if_pos hc]
           exact ⟨rfl, fun hcur => by simp; omega⟩
         · rw [if_neg hc]
           exact ⟨rfl, id⟩)
    | k_c =>
      cases shift <;>
        (simp at h
         obtain ⟨rfl, rfl⟩ := h
         exact ⟨rfl, id⟩)
    | k_v =>
      cases shift <;>
        (simp at h
         obtain ⟨rfl, rfl⟩ := h
         exact ⟨rfl, id⟩)
    | k_other =>
      cases shift <;>
        (simp at h
         obtain ⟨rfl, rfl⟩ := h
         exact ⟨rfl, id⟩)

/-- Claim C3: over any event sequence, the cursor stays within
[0, len(File List) - 1]: the loop reaches only states whose cursor is a
valid file-list index, the file list never changes, and the next/prev keys
increment past neither end — next moves only when strictly below the last
index, prev only when above 0, with no wraparound. -/
theorem Sorter.go_cursor_bounded (evs : List PEvent) :
    ∀ (s : Sorter) (fs : FS) (s' : Sorter) (fs' : FS),
      s.current < s.filelist.length →
      Sorter.go s fs evs = .cont s' fs' →
      (s'.filelist = s.filelist ∧ s'.current < s'.filelist.length) ∧
      (∀ (t : Sorter) (g : FS) (sh : Bool),
        Sorter.handleEvent t g (.keydown Key.k_right sh)
          = .cont (if t.current < t.filelist.length - 1
                   then { t with current := t.current + 1 } else t) g ∧
        Sorter.handleEvent t g (.keydown Key.k_left sh)
          = .cont (if t.current > 0
                   then { t with current := t.current - 1 } else t) g) := by
  have hnav : ∀ (t : Sorter) (g : FS) (sh : Bool),
      Sorter.handleEvent t g (.keydown Key.k_right sh)
        = .cont (if t.current < t.filelist.length - 1
                 then { t with current := t.current + 1 } else t) g ∧
      Sorter.handleEvent t g (.keydown Key.k_left sh)
        = .cont (if t.current > 0
                 then { t with current := t.current - 1 } else t) g := by
    intro t g sh
    cases sh <;> exact ⟨rfl, rfl⟩
  induction evs with
  | nil =>
    intro s fs s' fs' hc hrun
    rw [Sorter.go] at hrun
    injection hrun with h1 h2
    subst h1
    exact ⟨⟨rfl, hc⟩, hnav⟩
  | cons e rest ih =>
    intro s fs s' fs' hc hrun
    rw [Sorter.go] at hrun
    split at hrun
    · rename_i s1 fs1 hstep
      obtain ⟨hfl, hbound⟩ := Sorter.handleEvent_cont_inv s fs e s1 fs1 hstep
      obtain ⟨⟨hfl', hc'⟩, _⟩ := ih s1 fs1 s' fs' (hbound hc) hrun
      exact ⟨⟨hfl'.trans hfl, hc'⟩, hnav⟩
    · exact absurd hrun (by simp)
    · exact absurd hrun (by simp)

theorem Sorter.go_cursor_bounded_witness :
    (steppedSorter.filelist = sampleSorter.filelist ∧
     steppedSorter.current < steppedSorter.filelist.length) ∧
    (∀ (t : Sorter) (g : FS) (sh : Bool),
      Sorter.handleEvent t g (.keydown Key.k_right sh)
        = .cont (if t.current < t.filelist.length - 1
                 then { t with current := t.current + 1 } else t) g ∧
      Sorter.handleEvent t g (.keydown Key.k_left sh)
        = .cont (if t.current > 0
                 then { t with current := t.current - 1 } else t) g) :=
  Sorter.go_cursor_bounded [.keydown Key.k_right false, PEvent.other]
    sampleSorter abortFS steppedSorter abortFS (by decide) rfl
